import Mathlib

/-
Verification development for the MO2 Simple Installer core (src.cpp).

The definitions below are a shallow embedding of the Installation
Resolution Engine: the global flag map `pluginFlags` becomes an explicit
association list threaded through every operation, XML nodes become
plain structures, and the stateful C++ loops become folds that pass the
flag table explicitly.  The std::unordered_map operator[] access inside
`areDependenciesMet` (which would insert a default entry when the key is
missing) is modelled faithfully by `mapBracket`, so that statements such
as "dependency evaluation never mutates the flag table" have real
content instead of holding by type alone.
-/

set_option autoImplicit false

namespace Mo2si

/-- The flag table: `std::unordered_map<std::string, std::string> pluginFlags`
(src.cpp line 106), modelled as an association list whose lookup finds the
first matching key and whose assignment overwrites in place. -/
abbrev FlagTable := List (String × String)

/-- Lookup of a key in the flag table (`pluginFlags.find(flagName)`). -/
def ftFind : FlagTable → String → Option String
  | [], _ => none
  | (k, v) :: rest, n => if k == n then some v else ftFind rest n

/-- Assignment `pluginFlags[name] = value`: overwrite the existing binding
if present, otherwise append a new one. -/
def ftSet : FlagTable → String → String → FlagTable
  | [], n, v => [(n, v)]
  | (k, w) :: rest, n, v =>
      if k == n then (n, v) :: rest else (k, w) :: ftSet rest n v

/-- Read access `pluginFlags[name]` through `operator[]`: if the key is
absent, a default-constructed (empty) value is inserted and returned.  This
is the C++ semantics of the read on src.cpp line 313. -/
def mapBracket (t : FlagTable) (n : String) : String × FlagTable :=
  match ftFind t n with
  | some v => (v, t)
  | none => ("", ftSet t n "")

/-- One `<flagDependency flag=... value=.../>` assertion inside a
`<dependencies>` node. -/
structure FlagAssert where
  flag : String
  value : String
deriving DecidableEq

/-- A `<dependencies>` (or `<visible>`) node: the optional `operator`
attribute (absent means the `as_string("And")` default applies) and its
`flagDependency` children. -/
structure Dependencies where
  operatorAttr : Option String
  asserts : List FlagAssert
deriving DecidableEq

/-- The per-assertion computation of src.cpp lines 310-313:
`flagExists = pluginFlags.find(flagName) != pluginFlags.end()` and
`flagMatches = flagExists && (pluginFlags[flagName] == requiredValue)`,
where the `operator[]` access happens only when the find succeeded
(short-circuit of `&&`). -/
def flagMatchesSt (t : FlagTable) (flagName requiredValue : String) : Bool × FlagTable :=
  if (ftFind t flagName).isSome then
    ((mapBracket t flagName).1 == requiredValue, (mapBracket t flagName).2)
  else
    (false, t)

/-- One iteration of the `flagDependency` loop of src.cpp lines 309-318:
combine the accumulated result with this assertion according to the
operator (`&=` for And, `|=` for Or, untouched otherwise). -/
def depStep (operatorType : String) (acc : Bool × FlagTable) (dep : FlagAssert) :
    Bool × FlagTable :=
  (if operatorType == "And" then acc.1 && (flagMatchesSt acc.2 dep.flag dep.value).1
   else if operatorType == "Or" then acc.1 || (flagMatchesSt acc.2 dep.flag dep.value).1
   else acc.1,
   (flagMatchesSt acc.2 dep.flag dep.value).2)

/-- `areDependenciesMet` (src.cpp lines 306-320), with the global flag map
made an explicit input and output: the operator defaults to `"And"`, the
result starts as `operatorType == "And"`, and every `flagDependency`
child is folded in. -/
def areDependenciesMet (t : FlagTable) (d : Dependencies) : Bool × FlagTable :=
  let operatorType := d.operatorAttr.getD "And"
  d.asserts.foldl (depStep operatorType) ((operatorType == "And"), t)

theorem flagMatchesSt_preserves (t : FlagTable) (n v : String) :
    (flagMatchesSt t n v).2 = t := by
  unfold flagMatchesSt mapBracket
  cases h : ftFind t n <;> simp [h]

theorem depStep_preserves (op : String) (acc : Bool × FlagTable) (a : FlagAssert) :
    (depStep op acc a).2 = acc.2 := by
  unfold depStep
  simp [flagMatchesSt_preserves]

theorem foldl_depStep_preserves (op : String) (l : List FlagAssert) :
    ∀ (b : Bool) (t : FlagTable), (l.foldl (depStep op) (b, t)).2 = t := by
  induction l with
  | nil => intro b t; rfl
  | cons a l ih =>
      intro b t
      have h : depStep op (b, t) a = ((depStep op (b, t) a).1, t) := by
        have := depStep_preserves op (b, t) a
        exact Prod.ext rfl this
      rw [List.foldl_cons, h]
      exact ih _ t

theorem areDependenciesMet_preserves (t : FlagTable) (d : Dependencies) :
    (areDependenciesMet t d).2 = t :=
  foldl_depStep_preserves _ d.asserts _ t

theorem foldl_depStep_fst_const (op : String) (h1 : (op == "And") = false)
    (h2 : (op == "Or") = false) (l : List FlagAssert) :
    ∀ (b : Bool) (t : FlagTable), (l.foldl (depStep op) (b, t)).1 = b := by
  induction l with
  | nil => intro b t; rfl
  | cons a l ih =>
      intro b t
      have h : depStep op (b, t) a = (b, (depStep op (b, t) a).2) := by
        have : (depStep op (b, t) a).1 = b := by simp [depStep, h1, h2]
        exact Prod.ext this rfl
      rw [List.foldl_cons, h]
      exact ih b _

/-- Claim C4: evaluating a `dependencies` predicate with zero flag
assertions yields `true` when the operator is `And` or absent (the
default), and `false` when the operator is `Or`. -/
theorem empty_dependencies_vacuous_truth (t : FlagTable) :
    (areDependenciesMet t ⟨some "And", []⟩).1 = true ∧
    (areDependenciesMet t ⟨none, []⟩).1 = true ∧
    (areDependenciesMet t ⟨some "Or", []⟩).1 = false :=
  ⟨rfl, rfl, rfl⟩

/-- Claim C5: a flag assertion is satisfied exactly when the flag is a key
of the table and its stored value equals the required value under exact
(case-sensitive) string equality; an absent key never satisfies. -/
theorem flag_assertion_satisfaction (t : FlagTable) (n v : String) :
    (flagMatchesSt t n v).1 = true ↔ ftFind t n = some v := by
  unfold flagMatchesSt mapBracket
  cases h : ftFind t n with
  | none => simp [h]
  | some w => simp [h]

/-- Witness for C5 at a concrete table: the assertion on flag `A` with
required value `1` is satisfied by the table binding `A` to `1`. -/
theorem flag_assertion_satisfaction_s2p_witness :
    (flagMatchesSt [("A", "1")] "A" "1").1 = true :=
  (flag_assertion_satisfaction [("A", "1")] "A" "1").mpr rfl

/-- Claim C10: a `dependencies` predicate whose operator attribute is
present but neither `And` nor `Or` evaluates to `false` regardless of its
assertions. -/
theorem unknown_operator_yields_false (t : FlagTable) (op : String)
    (asserts : List FlagAssert) (h1 : op ≠ "And") (h2 : op ≠ "Or") :
    (areDependenciesMet t ⟨some op, asserts⟩).1 = false := by
  have b1 : (op == "And") = false := by
    simp [h1]
  have b2 : (op == "Or") = false := by
    simp [h2]
  unfold areDependenciesMet
  simp only [Option.getD]
  rw [foldl_depStep_fst_const op b1 b2 asserts _ t]
  exact b1

/-- Witness for C10: operator `Xor` with a satisfied assertion still
evaluates to `false`. -/
theorem unknown_operator_yields_false_s2p_witness :
    (areDependenciesMet [("A", "1")] ⟨some "Xor", [⟨"A", "1"⟩]⟩).1 = false :=
  unknown_operator_yields_false [("A", "1")] "Xor" [⟨"A", "1"⟩]
    (by decide) (by decide)

/-- A `<flag name=...>value</flag>` child of a `<conditionFlags>` node. -/
structure XmlFlag where
  name : String
  value : String
deriving DecidableEq

/-- A `<file .../>` or `<folder .../>` entry: the node name together with
its `source` and `destination` attributes. -/
structure FileEntry where
  kind : String
  source : String
  destination : String
deriving DecidableEq

/-- Whether a plan entry copies a single file or a whole folder. -/
inductive MapKind where
  | file
  | folder
deriving DecidableEq

/-- One resolved copy operation of the file-mapping plan, holding the raw
`source` and `destination` attribute values (the fixed `srcBase` and
`dstBase` roots are prepended uniformly by the copy applier). -/
structure PlanEntry where
  kind : MapKind
  source : String
  destination : String
deriving DecidableEq

/-- The dynamic node-name dispatch shared by all three copy loops of
`install`: `file` copies a file, `folder` copies a folder, anything else
is only logged (`Unknown node`) and produces no plan entry. -/
def entryOf (f : FileEntry) : Option PlanEntry :=
  if f.kind == "file" then some ⟨MapKind.file, f.source, f.destination⟩
  else if f.kind == "folder" then some ⟨MapKind.folder, f.source, f.destination⟩
  else none

/-- Plan entries contributed by a `files` list. -/
def planEntriesOf (files : List FileEntry) : List PlanEntry :=
  files.filterMap entryOf

/-- A `<plugin name=...>` node with its `<conditionFlags>` children and its
`<files>` children (an absent section is the empty list). -/
structure Plugin where
  name : String
  conditionFlags : List XmlFlag
  files : List FileEntry
deriving DecidableEq

/-- A `<group name=...>` node inside `<optionalFileGroups>`. -/
structure Group where
  name : String
  plugins : List Plugin
deriving DecidableEq

/-- An `<installStep name=...>` node with its optional `<visible>`
dependency predicate and its groups. -/
structure InstallStep where
  name : String
  visible : Option Dependencies
  groups : List Group
deriving DecidableEq

/-- A `<pattern>` node of `<conditionalFileInstalls>/<patterns>`. -/
structure Pattern where
  dependencies : Option Dependencies
  files : List FileEntry
deriving DecidableEq

/-- The parsed `ModuleConfig.xml` document, restricted to the parts the
engine reads. -/
structure ModuleConfig where
  requiredInstallFiles : List FileEntry
  installSteps : List InstallStep
  conditionalFileInstalls : List Pattern
deriving DecidableEq

/-- One selector object of the JSON `installFiles` array
(`installStep` and `group` default to the empty string via
`group.value(..., "")`; `plugin` is mandatory). -/
structure Selector where
  installStep : String
  group : String
  plugin : String
deriving DecidableEq

/-- The parsed JSON override file: optional `moduleName` and optional
`installFiles` selector array (`none` models a missing or non-array
field). -/
structure OverrideConfig where
  moduleName : Option String
  installFiles : Option (List Selector)
deriving DecidableEq

/-- XML whitespace, as collapsed by the XPath `normalize-space` calls in
the selector query of src.cpp lines 554-556. -/
def isXmlWs (c : Char) : Bool :=
  c == ' ' || c == '\t' || c == '\n' || c == '\r'

/-- Split a character list into maximal whitespace-free words; the second
argument is the reversed current word. -/
def wordsAux : List Char → List Char → List (List Char)
  | [], acc => if acc.isEmpty then [] else [acc.reverse]
  | c :: cs, acc =>
      if isXmlWs c then
        if acc.isEmpty then wordsAux cs [] else acc.reverse :: wordsAux cs []
      else wordsAux cs (c :: acc)

/-- Join words with single spaces. -/
def joinWords : List (List Char) → List Char
  | [] => []
  | [w] => w
  | w :: ws => w ++ ' ' :: joinWords ws

/-- XPath `normalize-space`: trim leading and trailing whitespace and
collapse every internal whitespace run to a single space. -/
def normSpace (s : String) : String :=
  String.mk (joinWords (wordsAux s.data []))

/-- `extractFlags` (src.cpp lines 252-263): write every `<flag>` child
with a non-empty `name` attribute into the flag table, in document
order. -/
def extractFlags (t : FlagTable) (flags : List XmlFlag) : FlagTable :=
  flags.foldl (fun acc f => if f.name = "" then acc else ftSet acc f.name f.value) t

/-- The XPath selector query of src.cpp lines 554-556: plugin nodes whose
enclosing installStep name matches the selector `installStep` OR whose
enclosing group name matches the selector `group` (inclusive or), and
whose own name matches the selector `plugin`, all under
`normalize-space`; results in document order, paired with their enclosing
step for the later `visible` walk-up. -/
def matchedPlugins (doc : ModuleConfig) (sel : Selector) : List (InstallStep × Plugin) :=
  doc.installSteps.flatMap (fun s =>
    s.groups.flatMap (fun g =>
      if normSpace s.name == sel.installStep || normSpace g.name == sel.group then
        (g.plugins.filter (fun p => normSpace p.name == sel.plugin)).map (fun p => (s, p))
      else []))

/-- Per-matched-plugin processing of src.cpp lines 558-592: first
`extractFlags(pluginNode)`, then walk up to the enclosing installStep and
evaluate its `visible` predicate against the current table; when the
predicate fails the `continue` skips only the file-copy part. -/
def processPlugin (acc : List PlanEntry × FlagTable) (sp : InstallStep × Plugin) :
    List PlanEntry × FlagTable :=
  let t1 := extractFlags acc.2 sp.2.conditionFlags
  match sp.1.visible with
  | some dep =>
      if (areDependenciesMet t1 dep).1 then
        (acc.1 ++ planEntriesOf sp.2.files, (areDependenciesMet t1 dep).2)
      else
        (acc.1, (areDependenciesMet t1 dep).2)
  | none => (acc.1 ++ planEntriesOf sp.2.files, t1)

/-- Phase B, the `installFiles` loop of src.cpp lines 549-595: every
selector is processed in array order, and every plugin node matched by
its XPath query is processed in document order. -/
def processSelectors (t : FlagTable) (doc : ModuleConfig) (sels : List Selector) :
    List PlanEntry × FlagTable :=
  sels.foldl (fun acc sel => (matchedPlugins doc sel).foldl processPlugin acc) ([], t)

/-- Per-pattern processing of src.cpp lines 600-624: a pattern with a
`dependencies` child is gated on `areDependenciesMet`; a pattern without
one is installed unconditionally. -/
def processPattern (acc : List PlanEntry × FlagTable) (p : Pattern) :
    List PlanEntry × FlagTable :=
  match p.dependencies with
  | some d =>
      if (areDependenciesMet acc.2 d).1 then
        (acc.1 ++ planEntriesOf p.files, (areDependenciesMet acc.2 d).2)
      else
        (acc.1, (areDependenciesMet acc.2 d).2)
  | none => (acc.1 ++ planEntriesOf p.files, acc.2)

/-- Phase C, the `conditionalFileInstalls` loop of src.cpp lines
600-624. -/
def runConditionalInstalls (t : FlagTable) (pats : List Pattern) :
    List PlanEntry × FlagTable :=
  pats.foldl processPattern ([], t)

/-- The module-config resolution path of `install` (src.cpp lines
517-635): required install files, then the `installFiles` selector phase,
then the `conditionalFileInstalls` phase, in that order, with the flag
table threaded through. -/
def resolveModuleConfig (t : FlagTable) (doc : ModuleConfig) (cfg : OverrideConfig) :
    List PlanEntry × FlagTable :=
  let b := processSelectors t doc (cfg.installFiles.getD [])
  let c := runConditionalInstalls b.2 doc.conditionalFileInstalls
  (planEntriesOf doc.requiredInstallFiles ++ b.1 ++ c.1, c.2)

/-- Truth value of an optional `dependencies` node: an absent node is
vacuously satisfied (the `if (dependenciesNode && ...)` guard). -/
def depsMetOpt (t : FlagTable) (od : Option Dependencies) : Bool :=
  match od with
  | some d => (areDependenciesMet t d).1
  | none => true

theorem foldl_processPattern (pats : List Pattern) :
    ∀ (plan : List PlanEntry) (t : FlagTable),
      pats.foldl processPattern (plan, t) =
        (plan ++ (pats.filter (fun p => depsMetOpt t p.dependencies)).flatMap
            (fun p => planEntriesOf p.files), t) := by
  induction pats with
  | nil => intro plan t; simp
  | cons p ps ih =>
      intro plan t
      rw [List.foldl_cons]
      cases hd : p.dependencies with
      | none =>
          have hstep : processPattern (plan, t) p = (plan ++ planEntriesOf p.files, t) := by
            simp [processPattern, hd]
          rw [hstep, ih]
          simp [List.filter_cons, depsMetOpt, hd, List.append_assoc]
      | some d =>
          have hsnd : (areDependenciesMet t d).2 = t := areDependenciesMet_preserves t d
          cases hr : (areDependenciesMet t d).1 with
          | true =>
              have hstep : processPattern (plan, t) p = (plan ++ planEntriesOf p.files, t) := by
                simp [processPattern, hd, hr, hsnd]
              rw [hstep, ih]
              simp [List.filter_cons, depsMetOpt, hd, hr, List.append_assoc]
          | false =>
              have hstep : processPattern (plan, t) p = (plan, t) := by
                simp [processPattern, hd, hr, hsnd]
              rw [hstep, ih]
              simp [List.filter_cons, depsMetOpt, hd, hr]

/-- Claim C9: dependency evaluation never mutates the flag table, and all
of Phase C (conditional pattern processing) leaves the flag table
unchanged. -/
theorem dependency_evaluation_preserves_flags (t : FlagTable) (d : Dependencies)
    (pats : List Pattern) :
    (areDependenciesMet t d).2 = t ∧ (runConditionalInstalls t pats).2 = t := by
  refine ⟨areDependenciesMet_preserves t d, ?_⟩
  unfold runConditionalInstalls
  rw [foldl_processPattern]

/-- Claim C2: within one resolution run, all Phase B flag mutation happens
before any Phase C pattern predicate is read — the plan and final table of
`resolveModuleConfig` are exactly: required entries, then the Phase B
entries, then every pattern whose predicate holds in the Phase B *final*
table, and the final table is the Phase B final table. -/
theorem conditional_patterns_see_phaseB_final_flags (t : FlagTable)
    (doc : ModuleConfig) (cfg : OverrideConfig) :
    resolveModuleConfig t doc cfg =
      (planEntriesOf doc.requiredInstallFiles
        ++ (processSelectors t doc (cfg.installFiles.getD [])).1
        ++ (doc.conditionalFileInstalls.filter
              (fun p => depsMetOpt (processSelectors t doc (cfg.installFiles.getD [])).2
                p.dependencies)).flatMap (fun p => planEntriesOf p.files),
       (processSelectors t doc (cfg.installFiles.getD [])).2) := by
  simp only [resolveModuleConfig, runConditionalInstalls, foldl_processPattern]
  simp

/-- Gate on the enclosing installStep `visible` predicate as the code
applies it: absent means visible, present means its evaluation result. -/
def stepVisibleOk (t : FlagTable) (s : InstallStep) : Bool :=
  match s.visible with
  | some d => (areDependenciesMet t d).1
  | none => true

/-- Claim C3: for every matched plugin, the conditionFlags are written to
the flag table first, the enclosing installStep `visible` predicate is
then evaluated against that already-updated table, and only the file
copies are gated on it — the resulting table is the flags-applied table
in both outcomes. -/
theorem plugin_flags_applied_before_visibility (plan : List PlanEntry)
    (t : FlagTable) (s : InstallStep) (p : Plugin) :
    processPlugin (plan, t) (s, p) =
      (if stepVisibleOk (extractFlags t p.conditionFlags) s then
         plan ++ planEntriesOf p.files
       else plan,
       extractFlags t p.conditionFlags) := by
  cases hv : s.visible with
  | none => simp [processPlugin, stepVisibleOk, hv]
  | some d =>
      have hsnd : (areDependenciesMet (extractFlags t p.conditionFlags) d).2 =
          extractFlags t p.conditionFlags :=
        areDependenciesMet_preserves _ d
      cases hr : (areDependenciesMet (extractFlags t p.conditionFlags) d).1 with
      | true => simp [processPlugin, stepVisibleOk, hv, hr, hsnd]
      | false => simp [processPlugin, stepVisibleOk, hv, hr, hsnd]

/-- A node of the extracted archive tree: a file or a directory with its
immediate children. -/
inductive FsTree where
  | file (name : String)
  | dir (name : String) (children : List FsTree)

/-- The filename component of a tree node. -/
def fsName : FsTree → String
  | FsTree.file n => n
  | FsTree.dir n _ => n

/-- Whether the node is a directory (`fs::is_directory`). -/
def isDir : FsTree → Bool
  | FsTree.file _ => false
  | FsTree.dir _ _ => true

/-- `fs::exists(p / name)`: a direct child with exactly that name. -/
def hasChildNamed (children : List FsTree) (n : String) : Bool :=
  children.any (fun e => fsName e == n)

/-- The marker subfolder names probed on src.cpp lines 448-454, in the
order of the `||` chain on line 455. -/
def markerNames : List String :=
  ["SKSE", "meshes", "textures", "interface", "sound", "scripts", "seq"]

/-- Candidate test of src.cpp lines 445-459: a direct child directory of
the archive root that directly contains at least one marker entry. -/
def isMainMod : FsTree → Bool
  | FsTree.file _ => false
  | FsTree.dir _ children => markerNames.any (fun m => hasChildNamed children m)

/-- A copy operation of the nested-resolver plan: paths are component
lists, the source relative to the archive root and the destination
relative to the mod directory. -/
structure NEntry where
  kind : MapKind
  sourcePath : List String
  destPath : List String

/-- Hoisting copy of src.cpp lines 466-471 and 494-499: each immediate
child of the chosen candidate folder is copied to the destination root
under its own name (the file case of a candidate never occurs because
candidates are directories). -/
def hoistPlan : FsTree → List NEntry
  | FsTree.file _ => []
  | FsTree.dir n children =>
      children.map (fun e =>
        ⟨if isDir e then MapKind.folder else MapKind.file, [n, fsName e], [fsName e]⟩)

/-- ASCII lowering of one character, as `std::tolower` does in the
default locale (src.cpp lines 292-297). -/
def lowerChar (c : Char) : Char :=
  if 'A' ≤ c ∧ c ≤ 'Z' then Char.ofNat (c.toNat + 32) else c

/-- `to_lower` of src.cpp lines 292-297. -/
def toLowerAscii (s : String) : String :=
  String.mk (s.data.map lowerChar)

/-- The `moduleNameLower` local of src.cpp lines 434-441: empty when the
JSON file is missing or carries no string `moduleName`, otherwise the
lowered value. -/
def moduleNameLowerOf : Option String → String
  | some s => toLowerAscii s
  | none => ""

/-- Error text for multiple candidates without a disambiguation key
(src.cpp line 476). -/
def ambiguousMsg : String :=
  "Multiple mod folders detected but no moduleName in JSON to disambiguate."

/-- Error text for a disambiguation key matching no candidate
(src.cpp line 488). -/
def noMatchMsg (m : String) : String :=
  "moduleName " ++ m ++ " did not match any folder."

/-- Error text for a disambiguation key matching several candidates
(src.cpp line 489). -/
def multiMatchMsg (m : String) : String :=
  "moduleName " ++ m ++ " matched multiple folders."

/-- The nested-mod-structure block of `install` (src.cpp lines 428-515):
collect candidate folders; with none, root-copy the whole archive; with
exactly one, hoist its contents; with several, require a unique
case-insensitive `moduleName` match and hoist it, failing otherwise. -/
def nestedResolve (root : List FsTree) (moduleName : Option String) :
    Except String (List NEntry) :=
  let moduleNameLower := moduleNameLowerOf moduleName
  let mains := root.filter isMainMod
  if mains.isEmpty then
    Except.ok [⟨MapKind.folder, [], []⟩]
  else if mains.length == 1 then
    Except.ok (hoistPlan (mains.headD (FsTree.dir "" [])))
  else if moduleNameLower = "" then
    Except.error ambiguousMsg
  else
    let matchList := mains.filter (fun p => toLowerAscii (fsName p) == moduleNameLower)
    if matchList.length == 1 then
      Except.ok (hoistPlan (matchList.headD (FsTree.dir "" [])))
    else if matchList.isEmpty then
      Except.error (noMatchMsg moduleNameLower)
    else
      Except.error (multiMatchMsg moduleNameLower)

theorem toLowerAscii_ne_empty {s : String} (h : s ≠ "") : toLowerAscii s ≠ "" := by
  cases s with
  | mk data =>
      cases data with
      | nil => exact absurd rfl h
      | cons c cs =>
          intro hc
          have hdata := congrArg String.data hc
          simp [toLowerAscii] at hdata

/-- Claim C7: with at least two candidate folders, an absent or empty
`moduleName` fails with the ambiguity error; a non-empty one matching no
candidate (case-insensitively) fails with the matched-nothing error;
matching several fails with the matched-multiple error; and matching
exactly one succeeds with that candidate hoisted. -/
theorem nested_multiple_candidates_disambiguation (root : List FsTree)
    (mn : Option String) (c c2 : FsTree) (rest : List FsTree)
    (h : root.filter isMainMod = c :: c2 :: rest) :
    ((mn = none ∨ mn = some "") →
      nestedResolve root mn = Except.error ambiguousMsg) ∧
    (∀ s, mn = some s → s ≠ "" →
      ((c :: c2 :: rest).filter
          (fun p => toLowerAscii (fsName p) == toLowerAscii s) = [] →
        nestedResolve root mn = Except.error (noMatchMsg (toLowerAscii s))) ∧
      (∀ ch, (c :: c2 :: rest).filter
          (fun p => toLowerAscii (fsName p) == toLowerAscii s) = [ch] →
        nestedResolve root mn = Except.ok (hoistPlan ch)) ∧
      (∀ m1 m2 ms, (c :: c2 :: rest).filter
          (fun p => toLowerAscii (fsName p) == toLowerAscii s) = m1 :: m2 :: ms →
        nestedResolve root mn = Except.error (multiMatchMsg (toLowerAscii s)))) := by
  have hlen : ((c :: c2 :: rest).length == 1) = false := rfl
  constructor
  · intro hmn
    have hml : moduleNameLowerOf mn = "" := by
      rcases hmn with h1 | h1 <;> subst h1 <;> rfl
    simp [nestedResolve, h, hlen, hml]
  · intro s hs hne
    subst hs
    have hml : moduleNameLowerOf (some s) = toLowerAscii s := rfl
    have hnee : ¬ (toLowerAscii s = "") := toLowerAscii_ne_empty hne
    refine ⟨?_, ?_, ?_⟩
    · intro hf
      simp [nestedResolve, h, hlen, hml, hnee, hf]
    · intro ch hf
      simp [nestedResolve, h, hlen, hml, hnee, hf]
    · intro m1 m2 ms hf
      have hlen2 : ((m1 :: m2 :: ms).length == 1) = false := rfl
      simp [nestedResolve, h, hlen, hml, hnee, hf, hlen2]

/-- Concrete candidate `ModA` for the C7 witness. -/
def wmodA : FsTree := FsTree.dir "ModA" [FsTree.dir "meshes" []]

/-- Concrete candidate `ModB` for the C7 witness. -/
def wmodB : FsTree := FsTree.dir "ModB" [FsTree.dir "textures" []]

/-- Archive root with the two candidates of the C7 witness. -/
def wroot : List FsTree := [wmodA, wmodB]

/-- Witness for C7: on a root with candidates `ModA` and `ModB`, an
absent `moduleName` is an ambiguity error, `modb` selects exactly `ModB`
case-insensitively, and `modc` is a matched-nothing error. -/
theorem nested_multiple_candidates_disambiguation_s2p_witness :
    nestedResolve wroot none = Except.error ambiguousMsg ∧
    nestedResolve wroot (some "modb") = Except.ok (hoistPlan wmodB) ∧
    nestedResolve wroot (some "modc") = Except.error (noMatchMsg "modc") := by
  refine ⟨?_, ?_, ?_⟩
  · exact (nested_multiple_candidates_disambiguation wroot none wmodA wmodB []
      (by rfl)).1 (Or.inl rfl)
  · exact (((nested_multiple_candidates_disambiguation wroot (some "modb") wmodA wmodB []
      (by rfl)).2 "modb" rfl (by decide)).2.1 wmodB (by rfl))
  · exact (((nested_multiple_candidates_disambiguation wroot (some "modc") wmodA wmodB []
      (by rfl)).2 "modc" rfl (by decide)).1 (by rfl))

/-- Claim C8: with zero candidate folders the plan is the single
folder-copy of the archive root onto the destination root; with exactly
one candidate every immediate child becomes a top-level entry whose
destination is just the child name, so the candidate directory never
introduces a nesting level (and, when no child shares its name, the
candidate name appears in no destination path). -/
theorem nested_zero_one_candidate_plans (root : List FsTree) (mn : Option String)
    (n : String) (ch : List FsTree) :
    (root.filter isMainMod = [] →
      nestedResolve root mn = Except.ok [⟨MapKind.folder, [], []⟩]) ∧
    (root.filter isMainMod = [FsTree.dir n ch] →
      nestedResolve root mn =
        Except.ok (ch.map (fun e =>
          ⟨if isDir e then MapKind.folder else MapKind.file, [n, fsName e], [fsName e]⟩)) ∧
      ((∀ e ∈ ch, fsName e ≠ n) →
        ∀ m ∈ hoistPlan (FsTree.dir n ch), n ∉ m.destPath)) := by
  constructor
  · intro h
    simp [nestedResolve, h]
  · intro h
    constructor
    · simp [nestedResolve, h, hoistPlan]
    · intro hne m hm
      simp only [hoistPlan, List.mem_map] at hm
      obtain ⟨e, he, rfl⟩ := hm
      intro hmem
      have : n = fsName e := List.mem_singleton.mp hmem
      exact hne e he this.symm

/-- Immediate children of the single candidate in the C8 witness. -/
def wmodXChildren : List FsTree :=
  [FsTree.file "a.txt", FsTree.dir "data" [], FsTree.dir "textures" []]

/-- Archive root with exactly one candidate folder `ModX`. -/
def wrootOne : List FsTree := [FsTree.dir "ModX" wmodXChildren]

/-- Archive root with no candidate folder at all. -/
def wrootZero : List FsTree := [FsTree.dir "Docs" [FsTree.file "readme.txt"]]

/-- Witness for C8: the zero-candidate root maps to a single root
folder-copy, and the contents of the lone candidate `ModX` are hoisted to
top level, with `ModX` in no destination path. -/
theorem nested_zero_one_candidate_plans_s2p_witness :
    nestedResolve wrootZero none = Except.ok [⟨MapKind.folder, [], []⟩] ∧
    nestedResolve wrootOne none =
      Except.ok (wmodXChildren.map (fun e =>
        ⟨if isDir e then MapKind.folder else MapKind.file, ["ModX", fsName e], [fsName e]⟩)) ∧
    (∀ m ∈ hoistPlan (FsTree.dir "ModX" wmodXChildren), "ModX" ∉ m.destPath) := by
  refine ⟨?_, ?_, ?_⟩
  · exact (nested_zero_one_candidate_plans wrootZero none "" []).1 (by rfl)
  · exact ((nested_zero_one_candidate_plans wrootOne none "ModX" wmodXChildren).2
      (by rfl)).1
  · exact ((nested_zero_one_candidate_plans wrootOne none "ModX" wmodXChildren).2
      (by rfl)).2 (by decide)

/-- The module-config branch of the exported `install` entry point
(src.cpp lines 517-635), at the granularity of one process-level call:
the first input is the state of the process-wide `pluginFlags` global
when the call starts (`install` never clears it), the second is the JSON
override file next to the archive (`none` when that file does not exist,
in which case `parseJson` on src.cpp line 523 throws and the call returns
the error text).  The call returns its result together with the state the
global is left in. -/
def installFomod (pluginFlagsIn : FlagTable) (jsonConfig : Option OverrideConfig)
    (doc : ModuleConfig) : Except String (List PlanEntry) × FlagTable :=
  match jsonConfig with
  | none => (Except.error "Cannot open JSON config", pluginFlagsIn)
  | some cfg =>
      (Except.ok (resolveModuleConfig pluginFlagsIn doc cfg).1,
       (resolveModuleConfig pluginFlagsIn doc cfg).2)

/-- First-run plugin: selecting it sets `Quality = High`. -/
def pluginP : Plugin := ⟨"P", [⟨"Quality", "High"⟩], []⟩

/-- First-run descriptor: one step `S` with group `G` holding `pluginP`,
no conditional patterns. -/
def docRun1 : ModuleConfig := ⟨[], [⟨"S", none, [⟨"G", [pluginP]⟩]⟩], []⟩

/-- First-run override: the selector choosing `pluginP`. -/
def cfgRun1 : OverrideConfig := ⟨none, some [⟨"S", "G", "P"⟩]⟩

/-- Second-run pattern gated on `Quality = High`. -/
def patQ : Pattern := ⟨some ⟨some "And", [⟨"Quality", "High"⟩]⟩, [⟨"file", "a.esp", "a.esp"⟩]⟩

/-- Second-run descriptor: no steps, only the gated pattern. -/
def docRun2 : ModuleConfig := ⟨[], [], [patQ]⟩

/-- Second-run override: no selectors at all. -/
def cfgRun2 : OverrideConfig := ⟨none, none⟩

/-- Claim C1 (violated by the code): the `pluginFlags` global survives
across calls to `install` within one process.  A first call whose
selector sets `Quality = High` leaves that flag in the table; a second,
independent call that sets no flag of its own then installs a pattern
gated on `Quality = High`, although the same call started from an empty
table installs nothing. -/
theorem flagTable_cross_run_contamination :
    (installFomod [] (some cfgRun1) docRun1).2 = [("Quality", "High")] ∧
    (installFomod (installFomod [] (some cfgRun1) docRun1).2
        (some cfgRun2) docRun2).1 =
      Except.ok [⟨MapKind.file, "a.esp", "a.esp"⟩] ∧
    (installFomod [] (some cfgRun2) docRun2).1 = Except.ok [] :=
  ⟨rfl, rfl, rfl⟩

/-- A descriptor that resolves to a plan with no JSON data needed: one
required install file and nothing else. -/
def docC6 : ModuleConfig := ⟨[⟨"file", "core.esp", "core.esp"⟩], [], []⟩

/-- Claim C6 (violated by the code): when a module-config descriptor is
found, `install` still demands the JSON override file — with the file
absent the run fails with the `parseJson` error, while the identical
descriptor with an empty JSON object present resolves to its plan. -/
theorem fomod_path_requires_json :
    installFomod [] none docC6 = (Except.error "Cannot open JSON config", []) ∧
    (installFomod [] (some ⟨none, none⟩) docC6).1 =
      Except.ok [⟨MapKind.file, "core.esp", "core.esp"⟩] :=
  ⟨rfl, rfl⟩

end Mo2si
